import Mathlib

/-!
Shallow embedding of src/yoyodyne/data/batches.py.

A one dimensional integer tensor is modelled as a `List Int` and a batch of
tensors as a `List (List Int)`.  The library primitives the file uses are
modelled from their documented behaviour:

* `torch.nn.functional.pad` on a one dimensional tensor with a `(0, padding)`
  specification appends `padding` copies of the fill value when `padding` is
  nonnegative and removes `-padding` trailing elements when it is negative;
  `pad1d` models exactly that.
* Python `max` over an empty generator raises `ValueError` and `torch.stack`
  raises a `RuntimeError` on an empty list, so the constructor is modelled as
  returning `none` in those situations.
* The optional `length_msg_callback` is modelled by its observable effect:
  the list of arguments passed to it, in call order, returned alongside the
  constructed value.  `has_callback = false` models passing `None`.

The desired length `pad_len` is modelled as a natural number: the clients in
scope only ever pass sequence lengths.
-/

namespace Yoyodyne

/-- Model of `torch.nn.functional.pad(tensor, (0, padding), "constant", value)`
for a one dimensional tensor. -/
def pad1d (tensor : List Int) (padding : Int) (value : Int) : List Int :=
  if 0 ≤ padding then tensor ++ List.replicate padding.toNat value
  else tensor.take (tensor.length - (-padding).toNat)

/-- Model of the `PaddedTensor` object after construction: the padding index
and the stacked padded rows. -/
structure PaddedTensor where
  pad_idx : Int
  padded : List (List Int)
deriving DecidableEq

/-- Model of `PaddedTensor.pad_tensor`: `padding = pad_max - len(tensor)`,
then a `(0, padding)` constant pad with the padding index. -/
def pad_tensor (pad_idx : Int) (tensor : List Int) (pad_max : Nat) : List Int :=
  pad1d tensor ((pad_max : Int) - (tensor.length : Int)) pad_idx

/-- The pad length chosen by `PaddedTensor.__init__`: the supplied `pad_len`
if any, otherwise `max(len(tensor) for tensor in tensorlist)`; `none` models
the `ValueError` raised by `max` on an empty generator. -/
def chosenLen (tensorlist : List (List Int)) (pad_len : Option Nat) : Option Nat :=
  match pad_len with
  | some n => some n
  | none =>
    match tensorlist with
    | [] => none
    | t :: ts => some ((ts.map List.length).foldl Nat.max t.length)

/-- Model of `PaddedTensor.__init__`.  The first component is the constructed
object, `none` when construction raises (`max` over an empty generator, or
`torch.stack` over an empty list).  The second component is the list of
arguments passed to `length_msg_callback`, in call order. -/
def PaddedTensor.init (tensorlist : List (List Int)) (pad_idx : Int)
    (has_callback : Bool) (pad_len : Option Nat) :
    Option PaddedTensor × List Nat :=
  match chosenLen tensorlist pad_len with
  | none => (none, [])
  | some L =>
    let log := if has_callback then [L] else []
    match tensorlist with
    | [] => (none, log)
    | _ :: _ =>
      (some ⟨pad_idx, tensorlist.map (fun t => pad_tensor pad_idx t L)⟩, log)

/-- Model of the `mask` property: `self.padded == self.pad_idx`, elementwise. -/
def PaddedTensor.mask (pt : PaddedTensor) : List (List Bool) :=
  pt.padded.map (fun row => row.map (fun x => x == pt.pad_idx))

/-- Model of `PaddedTensor.__len__`: `len(self.padded)`. -/
def PaddedTensor.len (pt : PaddedTensor) : Nat :=
  pt.padded.length

/-- Model of `PaddedTensor.lengths`: `(self.mask == 0).sum(dim=1)`, the
per-row sum of the indicator of the mask being false. -/
def PaddedTensor.lengths (pt : PaddedTensor) : List Nat :=
  pt.mask.map (fun row => (row.map (fun b => if b = false then (1 : Nat) else 0)).sum)

/-- Model of the `PaddedBatch` object: a mandatory source and optional
features and target. -/
structure PaddedBatch where
  source : PaddedTensor
  features : Option PaddedTensor
  target : Option PaddedTensor
deriving DecidableEq

/-- Model of the `has_features` property. -/
def PaddedBatch.has_features (b : PaddedBatch) : Bool :=
  b.features.isSome

/-- Model of the `has_target` property. -/
def PaddedBatch.has_target (b : PaddedBatch) : Bool :=
  b.target.isSome

/-- Model of `PaddedBatch.__len__`: `len(self.source)`. -/
def PaddedBatch.len (b : PaddedBatch) : Nat :=
  b.source.len

lemma le_foldl_max (l : List Nat) (a : Nat) : a ≤ l.foldl Nat.max a := by
  induction l generalizing a with
  | nil => exact Nat.le_refl a
  | cons x xs ih => exact Nat.le_trans (Nat.le_max_left a x) (ih (Nat.max a x))

lemma mem_le_foldl_max (l : List Nat) (a x : Nat) (hx : x ∈ l) :
    x ≤ l.foldl Nat.max a := by
  induction l generalizing a with
  | nil => cases hx
  | cons y ys ih =>
    rcases List.mem_cons.mp hx with h | h
    · subst h
      exact Nat.le_trans (Nat.le_max_right a x) (le_foldl_max ys (Nat.max a x))
    · exact ih (Nat.max a y) h

lemma foldl_max_eq_or_mem (l : List Nat) (a : Nat) :
    l.foldl Nat.max a = a ∨ l.foldl Nat.max a ∈ l := by
  induction l generalizing a with
  | nil => exact Or.inl rfl
  | cons x xs ih =>
    rcases ih (Nat.max a x) with h | h
    · rcases max_choice a x with hm | hm
      · exact Or.inl (by simpa [hm] using h)
      · have h2 : List.foldl Nat.max x xs = x := by simpa [hm] using h
        exact Or.inr (by simp [List.foldl_cons, hm, h2, List.mem_cons])
    · exact Or.inr (List.mem_cons_of_mem x h)

lemma chosenLen_none (tensorlist : List (List Int)) (L : Nat)
    (h : chosenLen tensorlist none = some L) :
    (∀ t ∈ tensorlist, t.length ≤ L) ∧ (∃ t ∈ tensorlist, t.length = L) := by
  cases tensorlist with
  | nil => simp [chosenLen] at h
  | cons t ts =>
    have hL : L = (ts.map List.length).foldl Nat.max t.length := by
      simpa [chosenLen] using h.symm
    constructor
    · intro s hs
      rcases List.mem_cons.mp hs with h1 | h1
      · subst h1; rw [hL]; exact le_foldl_max _ _
      · rw [hL]
        exact mem_le_foldl_max _ _ _ (List.mem_map_of_mem List.length h1)
    · rcases foldl_max_eq_or_mem (ts.map List.length) t.length with h1 | h1
      · exact ⟨t, List.mem_cons_self t ts, by rw [hL, h1]⟩
      · rcases List.mem_map.mp h1 with ⟨s, hs, hlen⟩
        exact ⟨s, List.mem_cons_of_mem t hs, by rw [hL, hlen]⟩

lemma chosenLen_some (tensorlist : List (List Int)) (n : Nat) :
    chosenLen tensorlist (some n) = some n := rfl

lemma pad_tensor_eq (pad_idx : Int) (tensor : List Int) (pad_max : Nat) :
    pad_tensor pad_idx tensor pad_max =
      tensor.take pad_max ++ List.replicate (pad_max - tensor.length) pad_idx := by
  unfold pad_tensor pad1d
  by_cases h : (0 : Int) ≤ (pad_max : Int) - (tensor.length : Int)
  · have hle : tensor.length ≤ pad_max := by exact_mod_cast Int.sub_nonneg.mp h
    have h1 : ((pad_max : Int) - (tensor.length : Int)).toNat =
        pad_max - tensor.length := by omega
    have h2 : tensor.take pad_max = tensor := List.take_of_length_le hle
    simp [h, h1, h2]
  · have hlt : pad_max < tensor.length := by omega
    have h1 : (-((pad_max : Int) - (tensor.length : Int))).toNat =
        tensor.length - pad_max := by omega
    have h2 : tensor.length - (tensor.length - pad_max) = pad_max := by omega
    have h3 : pad_max - tensor.length = 0 := by omega
    simp [h, h1, h2, h3]

lemma pad_tensor_length (pad_idx : Int) (tensor : List Int) (pad_max : Nat) :
    (pad_tensor pad_idx tensor pad_max).length = pad_max := by
  rw [pad_tensor_eq]
  simp only [List.length_append, List.length_take, List.length_replicate]
  omega

lemma init_cons (t : List Int) (ts : List (List Int)) (pad_idx : Int)
    (has_callback : Bool) (pad_len : Option Nat) (L : Nat)
    (hL : chosenLen (t :: ts) pad_len = some L) :
    PaddedTensor.init (t :: ts) pad_idx has_callback pad_len =
      (some ⟨pad_idx, (t :: ts).map (fun s => pad_tensor pad_idx s L)⟩,
        if has_callback then [L] else []) := by
  unfold PaddedTensor.init
  rw [hL]

lemma init_none_of_nil (pad_idx : Int) (has_callback : Bool) (pad_len : Option Nat) :
    (PaddedTensor.init [] pad_idx has_callback pad_len).1 = none := by
  unfold PaddedTensor.init
  cases h : chosenLen [] pad_len with
  | none => rfl
  | some L => rfl

lemma getD_map_lt {α β : Type} (f : α → β) (l : List α) (i : Nat) (da : α) (db : β)
    (hi : i < l.length) : (l.map f).getD i db = f (l.getD i da) := by
  induction l generalizing i with
  | nil => simp at hi
  | cons x xs ih =>
    cases i with
    | zero => rfl
    | succ n =>
      simp only [List.map_cons, List.getD_cons_succ]
      exact ih n (by simpa using hi)

lemma getD_mem {α : Type} (l : List α) (i : Nat) (d : α) (hi : i < l.length) :
    l.getD i d ∈ l := by
  rw [List.getD_eq_getElem l d hi]
  exact List.getElem_mem hi

lemma map_beq_of_not_mem (p : Int) (t : List Int) (h : p ∉ t) :
    t.map (fun x => x == p) = List.replicate t.length false := by
  induction t with
  | nil => rfl
  | cons x xs ih =>
    have hx : x ≠ p := fun he => h (he ▸ List.mem_cons_self x xs)
    have hxs : p ∉ xs := fun hm => h (List.mem_cons_of_mem x hm)
    simp [List.replicate_succ, ih hxs, hx]

lemma mask_row (p : Int) (t : List Int) (L : Nat) (hp : p ∉ t) (hle : t.length ≤ L) :
    (pad_tensor p t L).map (fun x => x == p) =
      List.replicate t.length false ++ List.replicate (L - t.length) true := by
  rw [pad_tensor_eq, List.take_of_length_le hle, List.map_append,
    map_beq_of_not_mem p t hp, List.map_replicate]
  simp

lemma getD_replicate_append (a b j : Nat) (hj : j < a + b) :
    ((List.replicate a false ++ List.replicate b true).getD j false = true) ↔ a ≤ j := by
  by_cases h : j < a
  · rw [List.getD_append _ _ _ _ (by simpa using h)]
    rw [List.getD_eq_getElem _ _ (show j < (List.replicate a false).length by simpa using h)]
    simp
    omega
  · push_neg at h
    rw [List.getD_append_right _ _ _ _ (by simpa using h)]
    have hb : j - (List.replicate a false).length < b := by simp; omega
    rw [List.getD_eq_getElem _ _
      (show j - (List.replicate a false).length < (List.replicate b true).length by
        simpa using hb)]
    simp [h]

lemma sum_indicator_row (a b : Nat) :
    (((List.replicate a false ++ List.replicate b true).map
      (fun x => if x = false then (1 : Nat) else 0)).sum) = a := by
  rw [List.map_append, List.map_replicate, List.map_replicate, List.sum_append]
  simp [List.sum_replicate]

example :
    (PaddedTensor.init [[1, 2], [1, 2, 3]] 0 false none).1 =
      some ⟨0, [[1, 2, 0], [1, 2, 3]]⟩ := by decide

example :
    (PaddedTensor.mk 0 [[1, 2, 0], [1, 2, 3]]).mask =
      [[false, false, true], [false, false, false]] := by decide

example :
    (PaddedTensor.mk 0 [[1, 2, 0], [1, 2, 3]]).lengths = [2, 3] := by decide

example : (PaddedTensor.init [] 0 false (some 5)).1 = none := by decide

example : (PaddedTensor.init [[1, 2, 3]] 0 false (some 2)).1 =
    some ⟨0, [[1, 2]]⟩ := by decide

lemma map_congr_mem {α β : Type} (l : List α) (f g : α → β)
    (h : ∀ a ∈ l, f a = g a) : l.map f = l.map g := by
  induction l with
  | nil => rfl
  | cons x xs ih =>
    have hx := h x (List.mem_cons_self x xs)
    have hxs := ih (fun a ha => h a (List.mem_cons_of_mem x ha))
    simp [hx, hxs]

/-- C8: for every PaddedTensor and every in-range position, the mask holds at
a position exactly when the padded value there equals the padding index. -/
theorem mask_is_elementwise_eq (pt : PaddedTensor) (i j : Nat)
    (hi : i < pt.padded.length) (hj : j < (pt.padded.getD i []).length) :
    ((pt.mask.getD i []).getD j false = true) ↔
      (pt.padded.getD i []).getD j 0 = pt.pad_idx := by
  unfold PaddedTensor.mask
  rw [getD_map_lt _ _ i [] [] hi]
  rw [getD_map_lt _ _ j 0 false hj]
  simp

/-- Witness for C8 at a concrete tensor and position. -/
theorem mask_is_elementwise_eq_witness :
    (0 < (PaddedTensor.mk 0 [[1, 0]]).padded.length) ∧
    (((PaddedTensor.mk 0 [[1, 0]]).mask.getD 0 []).getD 1 false = true ↔
      (((PaddedTensor.mk 0 [[1, 0]]).padded.getD 0 []).getD 1 0 =
        (PaddedTensor.mk 0 [[1, 0]]).pad_idx)) :=
  ⟨by decide, mask_is_elementwise_eq (PaddedTensor.mk 0 [[1, 0]]) 0 1
    (by decide) (by decide)⟩

/-- Counterexample to C1 as stated: with input [[0]] and padding index 0,
position 0 of row 0 is masked although it lies inside the original sequence,
whose length is 1. -/
theorem mask_beyond_length_cex :
    ¬ (∀ (tensorlist : List (List Int)) (pad_idx : Int) (pt : PaddedTensor)
        (log : List Nat),
        PaddedTensor.init tensorlist pad_idx false none = (some pt, log) →
        ∀ i j : Nat, i < tensorlist.length → j < (pt.padded.getD i []).length →
          (((pt.mask.getD i []).getD j false = true) ↔
            (tensorlist.getD i []).length ≤ j)) := by
  intro hall
  have h := hall [[0]] 0 (PaddedTensor.mk 0 [[0]]) [] (by decide) 0 0
    (by decide) (by decide)
  exact absurd (h.mp (by decide)) (by decide)

/-- C1 (amended): when no pad length is supplied and no input sequence
contains the padding index, the mask of the constructed PaddedTensor holds at
row i, column j exactly when j is at or beyond the original length of input
sequence i. -/
theorem mask_iff_beyond_length (tensorlist : List (List Int)) (pad_idx : Int)
    (has_callback : Bool) (pt : PaddedTensor) (log : List Nat)
    (hclean : ∀ t ∈ tensorlist, pad_idx ∉ t)
    (h : PaddedTensor.init tensorlist pad_idx has_callback none = (some pt, log))
    (i j : Nat) (hi : i < tensorlist.length)
    (hj : j < (pt.padded.getD i []).length) :
    ((pt.mask.getD i []).getD j false = true) ↔
      (tensorlist.getD i []).length ≤ j := by
  cases tensorlist with
  | nil => simp at hi
  | cons t ts =>
    have hL : chosenLen (t :: ts) none =
        some ((ts.map List.length).foldl Nat.max t.length) := rfl
    set L := (ts.map List.length).foldl Nat.max t.length with hLdef
    have hinit := init_cons t ts pad_idx has_callback none L hL
    rw [hinit] at h
    simp only [Prod.mk.injEq, Option.some.injEq] at h
    obtain ⟨rfl, -⟩ := h
    set ti := (t :: ts).getD i [] with hti
    have hmem : ti ∈ t :: ts := getD_mem _ i [] hi
    have hle : ti.length ≤ L := (chosenLen_none _ L hL).1 ti hmem
    have hp : pad_idx ∉ ti := hclean ti hmem
    have hrow : ((t :: ts).map (fun s => pad_tensor pad_idx s L)).getD i [] =
        pad_tensor pad_idx ti L := getD_map_lt _ _ i [] [] hi
    have hmask :
        (PaddedTensor.mk pad_idx
            ((t :: ts).map (fun s => pad_tensor pad_idx s L))).mask.getD i [] =
          (pad_tensor pad_idx ti L).map (fun x => x == pad_idx) := by
      unfold PaddedTensor.mask
      simp only [List.map_map]
      exact getD_map_lt _ _ i [] [] hi
    have hjL : j < L := by
      have := hj
      simp only [hrow] at this
      rwa [pad_tensor_length] at this
    rw [hmask, mask_row pad_idx ti L hp hle]
    exact getD_replicate_append ti.length (L - ti.length) j (by omega)

/-- Witness for the amended C1 at input [[1], [2, 3]] with padding index 0:
in row 0 the padded position 1 is masked and is at or beyond the original
length 1. -/
theorem mask_iff_beyond_length_witness :
    (∀ t ∈ [[(1 : Int)], [2, 3]], (0 : Int) ∉ t) ∧
    (((PaddedTensor.mk 0 [[1, 0], [2, 3]]).mask.getD 0 []).getD 1 false = true ↔
      (([[(1 : Int)], [2, 3]].getD 0 []).length ≤ 1)) :=
  ⟨by decide,
    mask_iff_beyond_length [[1], [2, 3]] 0 false
      (PaddedTensor.mk 0 [[1, 0], [2, 3]]) [] (by decide) (by decide) 0 1
      (by decide) (by decide)⟩

/-- Counterexample to C2 as stated: with input [[0]] and padding index 0,
lengths() reports 0 although the original sequence has length 1. -/
theorem lengths_original_cex :
    ¬ (∀ (tensorlist : List (List Int)) (pad_idx : Int) (pt : PaddedTensor)
        (log : List Nat),
        PaddedTensor.init tensorlist pad_idx false none = (some pt, log) →
        pt.lengths = tensorlist.map List.length) := by
  intro hall
  have h := hall [[0]] 0 (PaddedTensor.mk 0 [[0]]) [] (by decide)
  exact absurd h (by decide)

/-- C2 (amended): when no pad length is supplied and no input sequence
contains the padding index, lengths() of the constructed PaddedTensor
returns, for each row, the original pre-padding length of that input
sequence. -/
theorem lengths_eq_original (tensorlist : List (List Int)) (pad_idx : Int)
    (has_callback : Bool) (pt : PaddedTensor) (log : List Nat)
    (hclean : ∀ t ∈ tensorlist, pad_idx ∉ t)
    (h : PaddedTensor.init tensorlist pad_idx has_callback none = (some pt, log)) :
    pt.lengths = tensorlist.map List.length := by
  cases tensorlist with
  | nil => simp [PaddedTensor.init, chosenLen] at h
  | cons t ts =>
    have hL : chosenLen (t :: ts) none =
        some ((ts.map List.length).foldl Nat.max t.length) := rfl
    set L := (ts.map List.length).foldl Nat.max t.length with hLdef
    have hinit := init_cons t ts pad_idx has_callback none L hL
    rw [hinit] at h
    simp only [Prod.mk.injEq, Option.some.injEq] at h
    obtain ⟨rfl, -⟩ := h
    unfold PaddedTensor.lengths PaddedTensor.mask
    simp only [List.map_map]
    apply map_congr_mem
    intro s hs
    have hle : s.length ≤ L := (chosenLen_none _ L hL).1 s hs
    have hp : pad_idx ∉ s := hclean s hs
    simp only [Function.comp]
    rw [mask_row pad_idx s L hp hle, sum_indicator_row]

/-- Witness for the amended C2 at input [[1], [2, 3]] with padding index 0. -/
theorem lengths_eq_original_witness :
    (∀ t ∈ [[(1 : Int)], [2, 3]], (0 : Int) ∉ t) ∧
    (PaddedTensor.mk 0 [[1, 0], [2, 3]]).lengths =
      [[(1 : Int)], [2, 3]].map List.length :=
  ⟨by decide,
    lengths_eq_original [[1], [2, 3]] 0 false
      (PaddedTensor.mk 0 [[1, 0], [2, 3]]) [] (by decide) (by decide)⟩

/-- C3: for every non-empty input list with no supplied pad length,
construction succeeds, the chosen padded length is the maximum input length
(every input length is at most it and some input attains it), and every row
of the padded array has exactly that length. -/
theorem padlen_is_max (tensorlist : List (List Int)) (pad_idx : Int)
    (has_callback : Bool) (hne : tensorlist ≠ []) :
    ∃ pt log L,
      PaddedTensor.init tensorlist pad_idx has_callback none = (some pt, log) ∧
      chosenLen tensorlist none = some L ∧
      (∀ t ∈ tensorlist, t.length ≤ L) ∧ (∃ t ∈ tensorlist, t.length = L) ∧
      ∀ row ∈ pt.padded, row.length = L := by
  cases tensorlist with
  | nil => exact absurd rfl hne
  | cons t ts =>
    have hL : chosenLen (t :: ts) none =
        some ((ts.map List.length).foldl Nat.max t.length) := rfl
    set L := (ts.map List.length).foldl Nat.max t.length with hLdef
    refine ⟨_, _, L, init_cons t ts pad_idx has_callback none L hL, hL,
      (chosenLen_none _ L hL).1, (chosenLen_none _ L hL).2, ?_⟩
    intro row hrow
    rcases List.mem_map.mp hrow with ⟨s, _, hrow⟩
    rw [← hrow, pad_tensor_length]

/-- Witness for C3 at the non-empty input [[1], [2, 3]]. -/
theorem padlen_is_max_witness :
    ([[(1 : Int)], [2, 3]] ≠ ([] : List (List Int))) ∧
    (∃ pt log L,
      PaddedTensor.init [[(1 : Int)], [2, 3]] 0 false none = (some pt, log) ∧
      chosenLen [[(1 : Int)], [2, 3]] none = some L ∧
      (∀ t ∈ [[(1 : Int)], [2, 3]], t.length ≤ L) ∧
      (∃ t ∈ [[(1 : Int)], [2, 3]], t.length = L) ∧
      ∀ row ∈ pt.padded, row.length = L) :=
  ⟨by decide, padlen_is_max [[1], [2, 3]] 0 false (by decide)⟩

/-- C4: when a pad length at least every input length is supplied and
construction succeeds, each row of the padded array is the corresponding
input sequence followed by sentinel copies up to the pad length, and every
row has exactly the pad length. -/
theorem pad_with_override (tensorlist : List (List Int)) (pad_idx : Int)
    (has_callback : Bool) (P : Nat) (pt : PaddedTensor) (log : List Nat)
    (hP : ∀ t ∈ tensorlist, t.length ≤ P)
    (h : PaddedTensor.init tensorlist pad_idx has_callback (some P) =
      (some pt, log)) :
    pt.padded =
      tensorlist.map (fun t => t ++ List.replicate (P - t.length) pad_idx) ∧
    ∀ row ∈ pt.padded, row.length = P := by
  cases tensorlist with
  | nil => simp [PaddedTensor.init, chosenLen] at h
  | cons t ts =>
    have hinit := init_cons t ts pad_idx has_callback (some P) P rfl
    rw [hinit] at h
    simp only [Prod.mk.injEq, Option.some.injEq] at h
    obtain ⟨rfl, -⟩ := h
    constructor
    · apply map_congr_mem
      intro s hs
      rw [pad_tensor_eq, List.take_of_length_le (hP s hs)]
    · intro row hrow
      rcases List.mem_map.mp hrow with ⟨s, _, hrow⟩
      rw [← hrow, pad_tensor_length]

/-- Witness for C4 at input [[1], [2, 3]] with pad length 3. -/
theorem pad_with_override_witness :
    (∀ t ∈ [[(1 : Int)], [2, 3]], t.length ≤ 3) ∧
    ((PaddedTensor.mk 0 [[1, 0, 0], [2, 3, 0]]).padded =
      [[(1 : Int)], [2, 3]].map
        (fun t => t ++ List.replicate (3 - t.length) 0) ∧
     ∀ row ∈ (PaddedTensor.mk 0 [[1, 0, 0], [2, 3, 0]]).padded,
       row.length = 3) :=
  ⟨by decide,
    pad_with_override [[1], [2, 3]] 0 false 3
      (PaddedTensor.mk 0 [[1, 0, 0], [2, 3, 0]]) [] (by decide) (by decide)⟩

/-- C5: the length of a PaddedBatch equals the length of its source, for
every combination of optional features and target. -/
theorem batch_len_eq_source (source : PaddedTensor)
    (features target : Option PaddedTensor) :
    (PaddedBatch.mk source features target).len = source.len := rfl

/-- C6: when the supplied pad length is strictly shorter than the length of
input sequence i, construction still succeeds and row i of the padded array
is the input sequence truncated to the pad length. -/
theorem short_padlen_truncates (tensorlist : List (List Int)) (pad_idx : Int)
    (has_callback : Bool) (P : Nat) (i : Nat) (hi : i < tensorlist.length)
    (hshort : P < (tensorlist.getD i []).length) :
    ∃ pt log,
      PaddedTensor.init tensorlist pad_idx has_callback (some P) =
        (some pt, log) ∧
      pt.padded.getD i [] = (tensorlist.getD i []).take P ∧
      (pt.padded.getD i []).length = P := by
  cases tensorlist with
  | nil => simp at hi
  | cons t ts =>
    refine ⟨_, _, init_cons t ts pad_idx has_callback (some P) P rfl, ?_, ?_⟩
    · rw [getD_map_lt _ _ i [] [] hi, pad_tensor_eq]
      have h0 : P - ((t :: ts).getD i []).length = 0 := by omega
      rw [h0, List.replicate_zero, List.append_nil]
    · rw [getD_map_lt _ _ i [] [] hi, pad_tensor_length]

/-- Witness for C6 at input [[1, 2, 3]] with pad length 2. -/
theorem short_padlen_truncates_witness :
    ((2 : Nat) < ([[(1 : Int), 2, 3]].getD 0 []).length) ∧
    (∃ pt log,
      PaddedTensor.init [[(1 : Int), 2, 3]] 0 false (some 2) =
        (some pt, log) ∧
      pt.padded.getD 0 [] = ([[(1 : Int), 2, 3]].getD 0 []).take 2 ∧
      (pt.padded.getD 0 []).length = 2) :=
  ⟨by decide,
    short_padlen_truncates [[1, 2, 3]] 0 false 2 0 (by decide) (by decide)⟩

/-- C7: whenever a callback is supplied and a padded length is chosen, the
callback is invoked exactly once, with that length; the length is the
supplied pad length when one is given, and otherwise the maximum input
length. -/
theorem callback_once (tensorlist : List (List Int)) (pad_idx : Int)
    (pad_len : Option Nat) (L : Nat)
    (hL : chosenLen tensorlist pad_len = some L) :
    (PaddedTensor.init tensorlist pad_idx true pad_len).2 = [L] ∧
    (∀ P, pad_len = some P → L = P) ∧
    (pad_len = none →
      (∀ t ∈ tensorlist, t.length ≤ L) ∧ ∃ t ∈ tensorlist, t.length = L) := by
  refine ⟨?_, ?_, ?_⟩
  · unfold PaddedTensor.init
    rw [hL]
    cases tensorlist with
    | nil => rfl
    | cons t ts => rfl
  · intro P hP
    rw [hP] at hL
    exact (Option.some.injEq _ _ ▸ hL.symm :)
  · intro hnone
    rw [hnone] at hL
    exact chosenLen_none tensorlist L hL

/-- Witness for C7 at input [[1, 2]] with no supplied pad length: the
callback receives the maximum input length 2. -/
theorem callback_once_witness :
    chosenLen [[(1 : Int), 2]] none = some 2 ∧
    ((PaddedTensor.init [[(1 : Int), 2]] 0 true none).2 = [2] ∧
     (∀ P, (none : Option Nat) = some P → 2 = P) ∧
     ((none : Option Nat) = none →
       (∀ t ∈ [[(1 : Int), 2]], t.length ≤ 2) ∧
       ∃ t ∈ [[(1 : Int), 2]], t.length = 2)) :=
  ⟨by decide, callback_once [[1, 2]] 0 none 2 (by decide)⟩

/-- C9: at input [[1, 2], [1, 2, 3]] with padding index 0 and no supplied
pad length, the padded array, mask and lengths are exactly as the spec
example states. -/
theorem example_batch :
    PaddedTensor.init [[1, 2], [1, 2, 3]] 0 false none =
      (some (PaddedTensor.mk 0 [[1, 2, 0], [1, 2, 3]]), []) ∧
    (PaddedTensor.mk 0 [[1, 2, 0], [1, 2, 3]]).mask =
      [[false, false, true], [false, false, false]] ∧
    (PaddedTensor.mk 0 [[1, 2, 0], [1, 2, 3]]).lengths = [2, 3] := by
  decide

/-- Counterexample to C10 as stated: for the empty input list, supplying an
explicit pad length does not avoid the failure; construction still returns
no PaddedTensor, because stacking an empty list raises. -/
theorem empty_with_padlen_cex :
    (PaddedTensor.init ([] : List (List Int)) 0 false (some 5)).1 = none := by
  decide

/-- C10 (amended): construction from the empty input list fails whether or
not a pad length is supplied; without one the maximum over an empty
collection is undefined, and with one the callback still runs with the
supplied length but stacking the empty list of rows fails. -/
theorem empty_always_fails (pad_idx : Int) (has_callback : Bool) (P : Nat) :
    (PaddedTensor.init [] pad_idx has_callback none).1 = none ∧
    chosenLen [] none = none ∧
    (PaddedTensor.init [] pad_idx has_callback (some P)).1 = none ∧
    (PaddedTensor.init [] pad_idx true (some P)).2 = [P] :=
  ⟨init_none_of_nil pad_idx has_callback none, rfl,
    init_none_of_nil pad_idx has_callback (some P), rfl⟩

end Yoyodyne
